import Mathlib

/-!
Verification of the order aggregation and validation core of the Syrve
delivery-report script (`src/script.py`).

The embedding models:
* timestamps as integers (microseconds, the resolution of Python `datetime`);
* JSON-like order records as an inductive `JVal` with Python truthiness;
* the date-chunking loop of `fetch_orders` (lines 83-100);
* the phone regular expression `PHONE_PATTERN` (lines 16-20) compiled to a
  character-list matcher, including Python's `$` semantics (which also
  matches just before one trailing newline);
* the `summarize` function (lines 105-134).

Fallible Python operations (attribute errors on non-dict values,
`re.match` on a non-string) are modelled with `Except Unit`.
-/

namespace Syrve

/-- JSON-like values as delivered by the API and consumed by the script. -/
inductive JVal where
  | null
  | bool (b : Bool)
  | num (n : Int)
  | str (s : String)
  | arr (xs : List JVal)
  | obj (kvs : List (String × JVal))
deriving Repr

/-- Python truthiness (`bool(v)`): `None`, `False`, `0`, `""`, `[]`, `{}`
are falsy, everything else truthy. -/
def truthy : JVal → Bool
  | .null => false
  | .bool b => b
  | .num n => n != 0
  | .str s => s != ""
  | .arr xs => !xs.isEmpty
  | .obj kvs => !kvs.isEmpty

/-- `d.get(k)`: value of the first binding of `k`, `None` when absent. -/
def pyGet (kvs : List (String × JVal)) (k : String) : JVal :=
  (List.lookup k kvs).getD .null

/-- `d.get(k, dflt)`. -/
def pyGetD (kvs : List (String × JVal)) (k : String) (dflt : JVal) : JVal :=
  (List.lookup k kvs).getD dflt

/-- Python `v == 0` for a JSON value: `0 == 0` and `False == 0` hold,
every other value compares unequal (no exception). -/
def pyEqZero : JVal → Bool
  | .num n => n == 0
  | .bool b => !b
  | _ => false

/-! ## Date chunking (`fetch_orders`, src/script.py lines 83-100) -/

/-- `timedelta(days=1)` in microseconds. -/
def oneDay : Int := 86400000000

/-- The `while cur < end` loop of `fetch_orders`, line 91-99, restricted to
the window arithmetic: `nxt = min(cur + timedelta(days=1), end)`, emit
`(cur, nxt)`, continue from `nxt`.  Structural recursion on a fuel that is
always sufficient because every iteration advances `cur` by at least one. -/
def chunkFuel : Nat → Int → Int → List (Int × Int)
  | 0, _, _ => []
  | fuel + 1, cur, e =>
    if cur < e then
      let nxt := min (cur + oneDay) e
      (cur, nxt) :: chunkFuel fuel nxt e
    else []

/-- All windows produced by the loop from `start` to `e` (already clamped). -/
def dateWindows (start e : Int) : List (Int × Int) :=
  chunkFuel (e - start).toNat start e

/-- Lines 87-88: `if end > now: end = now`. -/
def clampEnd (e now : Int) : Int :=
  if e > now then now else e

/-- Line 95-98: a window's fetch result, with `requests.HTTPError`
swallowed (`except ...: pass`), so a failing window contributes `[]`. -/
def recoverFetch (fetch : Int × Int → Except Unit (List JVal))
    (w : Int × Int) : List JVal :=
  match fetch w with
  | .ok os => os
  | .error _ => []

/-- `fetch_orders` (lines 83-100): clamp the end to `now`, walk the daily
windows and accumulate `all_orders += get_deliveries(...)`, skipping
windows whose fetch raises `HTTPError`. -/
def fetch_orders (fetch : Int × Int → Except Unit (List JVal))
    (start e now : Int) : List JVal :=
  (dateWindows start (clampEnd e now)).foldl
    (fun acc w => acc ++ recoverFetch fetch w) []

/-! ## Phone validation (`PHONE_PATTERN`, src/script.py lines 16-20)

The pattern is
`^\+380(39|50|63|66|67|68|73|91|92|93|95|96|97|98|99)(?!0000000|...|9999999)\d{7}$`
used through `PHONE_PATTERN.match`.  All alternation branches are distinct
two-character literals and `\d{7}` is a fixed count, so the engine is
deterministic and compiles to a straight-line matcher over the character
list.  The pattern is a `str` pattern compiled without `re.ASCII`, so
`\d` matches any Unicode decimal digit (category Nd), enumerated below as
`ndRanges`.  Python's `$` without `re.MULTILINE` matches at the very end
of the string or just before one final newline, which `matchDollar`
reproduces. -/

/-- The fifteen operator codes of the first alternation, as character pairs. -/
def opCodes : List (Char × Char) :=
  [('3', '9'), ('5', '0'), ('6', '3'), ('6', '6'), ('6', '7'), ('6', '8'),
   ('7', '3'), ('9', '1'), ('9', '2'), ('9', '3'), ('9', '5'), ('9', '6'),
   ('9', '7'), ('9', '8'), ('9', '9')]

/-- The Unicode decimal-digit ranges (first and last code point of each
run of category Nd), as matched by `\d` in a `str` pattern without
`re.ASCII`; enumerated from the interpreter's Unicode 14.0 tables. -/
def ndRanges : List (Nat × Nat) :=
  [(48, 57), (1632, 1641), (1776, 1785), (1984, 1993), (2406, 2415), (2534, 2543),
   (2662, 2671), (2790, 2799), (2918, 2927), (3046, 3055), (3174, 3183), (3302, 3311),
   (3430, 3439), (3558, 3567), (3664, 3673), (3792, 3801), (3872, 3881), (4160, 4169),
   (4240, 4249), (6112, 6121), (6160, 6169), (6470, 6479), (6608, 6617), (6784, 6793),
   (6800, 6809), (6992, 7001), (7088, 7097), (7232, 7241), (7248, 7257), (42528, 42537),
   (43216, 43225), (43264, 43273), (43472, 43481), (43504, 43513), (43600, 43609), (44016, 44025),
   (65296, 65305), (66720, 66729), (68912, 68921), (69734, 69743), (69872, 69881), (69942, 69951),
   (70096, 70105), (70384, 70393), (70736, 70745), (70864, 70873), (71248, 71257), (71360, 71369),
   (71472, 71481), (71904, 71913), (72016, 72025), (72784, 72793), (73040, 73049), (73120, 73129),
   (92768, 92777), (92864, 92873), (93008, 93017), (120782, 120831), (123200, 123209), (123632, 123641),
   (125264, 125273), (130032, 130041)]

/-- `\d`: any Unicode decimal digit (category Nd). -/
def isDigitChar (c : Char) : Bool :=
  ndRanges.any fun r => r.1 ≤ c.toNat && c.toNat ≤ r.2

/-- The characters `0`-`9`: the digits as the claim's exact reading takes
"digits", and the only digits appearing in the pattern's literals. -/
def isAsciiDigit (c : Char) : Bool := '0' ≤ c && c ≤ '9'

/-- The ten literal alternatives of the negative lookahead. -/
def repeatedSeqs : List (List Char) :=
  [['0', '0', '0', '0', '0', '0', '0'], ['1', '1', '1', '1', '1', '1', '1'],
   ['2', '2', '2', '2', '2', '2', '2'], ['3', '3', '3', '3', '3', '3', '3'],
   ['4', '4', '4', '4', '4', '4', '4'], ['5', '5', '5', '5', '5', '5', '5'],
   ['6', '6', '6', '6', '6', '6', '6'], ['7', '7', '7', '7', '7', '7', '7'],
   ['8', '8', '8', '8', '8', '8', '8'], ['9', '9', '9', '9', '9', '9', '9']]

/-- Python `$` (no `re.MULTILINE`): end of input, or one final newline. -/
def matchDollar : List Char → Bool
  | [] => true
  | ['\n'] => true
  | _ => false

/-- `PHONE_PATTERN.match` compiled over the code-point list: the literal
`+380`, a two-character operator code, the negative lookahead on the
remaining characters, then `\d{7}` and `$`. -/
def phoneValidAux (l : List Char) : Bool :=
  match l with
  | c0 :: c1 :: c2 :: c3 :: a :: b :: rest =>
    (c0 == '+') && (c1 == '3') && (c2 == '8') && (c3 == '0') &&
    decide ((a, b) ∈ opCodes) &&
    !(repeatedSeqs.any fun r => r.isPrefixOf rest) &&
    (match rest with
     | d1 :: d2 :: d3 :: d4 :: d5 :: d6 :: d7 :: tail =>
       [d1, d2, d3, d4, d5, d6, d7].all isDigitChar && matchDollar tail
     | _ => false)
  | _ => false

/-- `bool(PHONE_PATTERN.match(s))`. -/
def phoneValid (s : String) : Bool := phoneValidAux s.data

/-- Modelled from the claim's words: the string consists of exactly the
prefix `+380`, a listed operator code, and seven digits (`0`-`9`, as in
the claim's repeated sequences 0000000 through 9999999) whose seven-digit
suffix is not a repeated single digit — nothing before, nothing after. -/
def specPhoneValid (s : String) : Bool :=
  match s.data with
  | [c0, c1, c2, c3, a, b, d1, d2, d3, d4, d5, d6, d7] =>
    (c0 == '+') && (c1 == '3') && (c2 == '8') && (c3 == '0') &&
    decide ((a, b) ∈ opCodes) &&
    !(decide ([d1, d2, d3, d4, d5, d6, d7] ∈ repeatedSeqs)) &&
    [d1, d2, d3, d4, d5, d6, d7].all isAsciiDigit
  | _ => false

/-- The amended reading: prefix, operator code, and seven Unicode decimal
digits (`\d`, category Nd) whose suffix is not one of the ten ASCII
repeated sequences, where after the seven digits either the string ends
or exactly one newline follows (Python `$`). -/
def specPhoneValidNl (s : String) : Bool :=
  match s.data with
  | c0 :: c1 :: c2 :: c3 :: a :: b :: d1 :: d2 :: d3 :: d4 :: d5 :: d6 :: d7 :: tail =>
    (c0 == '+') && (c1 == '3') && (c2 == '8') && (c3 == '0') &&
    decide ((a, b) ∈ opCodes) &&
    !(decide ([d1, d2, d3, d4, d5, d6, d7] ∈ repeatedSeqs)) &&
    ([d1, d2, d3, d4, d5, d6, d7].all isDigitChar && matchDollar tail)
  | _ => false

/-! ## Summary (`summarize`, src/script.py lines 105-134)

The loop body (lines 108-121) classifies each record into exactly one of:
no client, no phone, or a phone entry carrying the phone string, its
validity, and whether the order's sum compared equal to 0.  `Entry` records
that classification; the final dictionary (lines 123-134) is computed from
the entry list.  Python raises (and `summarize` returns no value) when
`.get` is called on a non-dict unwrapped record or when `re.match` is
applied to a truthy non-string phone; these paths are `Except.error`. -/

/-- Outcome of one iteration of the classification loop for one record. -/
inductive Entry where
  | noClient
  | noPhone
  | phone (ph : String) (valid : Bool) (zero : Bool)
deriving Repr, DecidableEq

/-- Line 109: `od = o.get('order') or o` — the `order` field is used only
when its value is truthy, otherwise the record itself. -/
def unwrap (kvs : List (String × JVal)) : JVal :=
  let v := pyGet kvs "order"
  if truthy v then v else .obj kvs

/-- Lines 110-121 applied to the unwrapped record `od` (a dict):
`if not od.get('customer')` → no client; `if not ph` → no phone; otherwise
record the phone (which must be a string, or `re.match` raises), its
pattern match, and `od.get('sum', 0) == 0`. -/
def classifyOd (od : List (String × JVal)) : Except Unit Entry :=
  match truthy (pyGet od "customer") with
  | false => .ok .noClient
  | true =>
    let ph := pyGet od "phone"
    match truthy ph with
    | false => .ok .noPhone
    | true =>
      match ph with
      | .str s => .ok (.phone s (phoneValid s) (pyEqZero (pyGetD od "sum" (.num 0))))
      | _ => .error ()

/-- One loop iteration on a raw record: `o.get` requires a dict, and the
unwrapped value must again be a dict before `od.get` can be called. -/
def classify (o : JVal) : Except Unit Entry :=
  match o with
  | .obj kvs =>
    match unwrap kvs with
    | .obj od => classifyOd od
    | _ => .error ()
  | _ => .error ()

/-- The whole loop: classify records in order, propagating the first
exception (which aborts `summarize` without a result). -/
def classifyAll : List JVal → Except Unit (List Entry)
  | [] => .ok []
  | o :: os =>
    match classify o with
    | .error e => .error e
    | .ok entry =>
      match classifyAll os with
      | .error e => .error e
      | .ok es => .ok (entry :: es)

/-- The returned dictionary (lines 125-134). -/
structure Summary where
  total : Nat
  no_client : Nat
  no_phone : Nat
  invalid : List String
  inv_count : Nat
  zero : Nat
  unique : Nat
  dup : List (String × Nat)
deriving Repr, DecidableEq

def isNoClientE : Entry → Bool
  | .noClient => true
  | _ => false

def isNoPhoneE : Entry → Bool
  | .noPhone => true
  | _ => false

def isPhoneE : Entry → Bool
  | .phone _ _ _ => true
  | _ => false

def isZeroE : Entry → Bool
  | .phone _ _ true => true
  | _ => false

def phoneE : Entry → Option String
  | .phone p _ _ => some p
  | _ => none

def invalidE : Entry → Option String
  | .phone p false _ => some p
  | _ => none

/-- Lexicographic comparison of character lists by code point, the order
Python uses to compare strings (`sorted` on `str`). -/
def chLe : List Char → List Char → Bool
  | [], _ => true
  | _ :: _, [] => false
  | a :: as, b :: bs =>
    if a.toNat < b.toNat then true
    else if b.toNat < a.toNat then false
    else chLe as bs

/-- Strict lexicographic comparison by code point. -/
def chLt : List Char → List Char → Bool
  | [], [] => false
  | [], _ :: _ => true
  | _ :: _, [] => false
  | a :: as, b :: bs =>
    if a.toNat < b.toNat then true
    else if b.toNat < a.toNat then false
    else chLt as bs

/-- Python string `<=` (code-point lexicographic). -/
def strLe (a b : String) : Bool := chLe a.data b.data

/-- Python string `<` (code-point lexicographic). -/
def strLt (a b : String) : Bool := chLt a.data b.data

/-- Keys of `Counter(phones)` in first-occurrence order (Python 3.7+
dictionaries preserve insertion order). -/
def counterKeys (l : List String) : List String :=
  l.foldl (fun acc p => if p ∈ acc then acc else acc ++ [p]) []

/-- `Counter(phones)` as an ordered association list. -/
def counter (l : List String) : List (String × Nat) :=
  (counterKeys l).map fun p => (p, l.count p)

/-- Lines 123-134: build the summary dictionary from the loop's entries.
`phones` and `invalid` are the multisets accumulated by `append`;
`sorted(set(invalid))` is an ascending sort of the distinct strings;
`dup` keeps the counter entries with count above one. -/
def buildSummary (total : Nat) (es : List Entry) : Summary :=
  let phones := es.filterMap phoneE
  let invalid := es.filterMap invalidE
  { total := total
    no_client := es.countP isNoClientE
    no_phone := es.countP isNoPhoneE
    invalid := List.insertionSort (fun a b => strLe a b = true) invalid.dedup
    inv_count := invalid.length
    zero := es.countP isZeroE
    unique := (counterKeys phones).length
    dup := (counter phones).filter fun pc => pc.2 > 1 }

/-- `summarize` (lines 105-134). -/
def summarize (orders : List JVal) : Except Unit Summary :=
  (classifyAll orders).map (buildSummary orders.length)

/-! ## Direct per-order views used to state properties -/

/-- The record, after unwrapping, has a truthy `customer` and a truthy
`phone` — the orders whose phone enters the considered multiset. -/
def hasClientAndPhone (o : JVal) : Bool :=
  match o with
  | .obj kvs =>
    match unwrap kvs with
    | .obj od => truthy (pyGet od "customer") && truthy (pyGet od "phone")
    | _ => false
  | _ => false

/-- The record passed both presence checks, its phone is a string, and its
sum (missing treated as `0`) compares equal to `0`. -/
def contributesZero (o : JVal) : Bool :=
  match o with
  | .obj kvs =>
    match unwrap kvs with
    | .obj od =>
      truthy (pyGet od "customer") &&
      (match pyGet od "phone" with
       | .str s => (s != "") && pyEqZero (pyGetD od "sum" (.num 0))
       | _ => false)
    | _ => false
  | _ => false

/-- The invalid-phone occurrence contributed by one record, if any. -/
def invalidPhoneOf (o : JVal) : Option String :=
  match o with
  | .obj kvs =>
    match unwrap kvs with
    | .obj od =>
      if truthy (pyGet od "customer") then
        match pyGet od "phone" with
        | .str s => if s != "" && !phoneValid s then some s else none
        | _ => none
      else none
    | _ => none
  | _ => none

/-! ## Statement-level model of the `summarize` loop

`PyEnv` carries the Python variables live across the loop of lines
108-121: the input list `orders` and the accumulators created on lines
106-107.  Each iteration is translated statement by statement; no
statement assigns to `orders` or into a record, so the input threads
through unchanged.  This model is related to `summarize` below and is used
to express that `summarize` does not disturb its input. -/

structure PyEnv where
  orders : List JVal
  phones : List String
  invalid : List String
  no_client : Nat
  no_phone : Nat
  zero : Nat
deriving Repr

/-- The body of `for o in orders` (lines 109-121) acting on the variables. -/
def stepOrder (env : PyEnv) (o : JVal) : Except Unit PyEnv :=
  match o with
  | .obj kvs =>
    match unwrap kvs with
    | .obj od =>
      match truthy (pyGet od "customer") with
      | false => .ok { env with no_client := env.no_client + 1 }
      | true =>
        let ph := pyGet od "phone"
        match truthy ph with
        | false => .ok { env with no_phone := env.no_phone + 1 }
        | true =>
          match ph with
          | .str s =>
            let env1 := { env with phones := env.phones ++ [s] }
            let env2 :=
              if !phoneValid s then { env1 with invalid := env1.invalid ++ [s] }
              else env1
            .ok (if pyEqZero (pyGetD od "sum" (.num 0)) then
                   { env2 with zero := env2.zero + 1 }
                 else env2)
          | _ => .error ()
    | _ => .error ()
  | _ => .error ()

/-- The loop itself, iterating over a view of the order list while the
environment threads through. -/
def runLoop (env : PyEnv) : List JVal → Except Unit PyEnv
  | [] => .ok env
  | o :: os =>
    match stepOrder env o with
    | .ok env1 => runLoop env1 os
    | .error e => .error e

/-- Lines 123-134 read off the final environment. -/
def buildFinal (env : PyEnv) : Summary :=
  { total := env.orders.length
    no_client := env.no_client
    no_phone := env.no_phone
    invalid := List.insertionSort (fun a b => strLe a b = true) env.invalid.dedup
    inv_count := env.invalid.length
    zero := env.zero
    unique := (counterKeys env.phones).length
    dup := (counter env.phones).filter fun pc => pc.2 > 1 }

/-- `summarize` with the variable environment made explicit; the second
component of the result is the order list as it stands after the run. -/
def summarizeEnv (orders : List JVal) : Except Unit (Summary × List JVal) :=
  match runLoop ⟨orders, [], [], 0, 0, 0⟩ orders with
  | .ok env => .ok (buildFinal env, env.orders)
  | .error e => .error e

/-- The effect of one loop iteration on the accumulators, expressed through
the iteration's classification; used to relate `runLoop` to `classifyAll`. -/
def applyEntry (env : PyEnv) : Entry → PyEnv
  | .noClient => { env with no_client := env.no_client + 1 }
  | .noPhone => { env with no_phone := env.no_phone + 1 }
  | .phone s v z =>
    { env with
        phones := env.phones ++ [s]
        invalid := env.invalid ++ (if v then [] else [s])
        zero := env.zero + (if z then 1 else 0) }

/-! ## Concrete inputs used in counterexamples and witnesses -/

/-- The four orders of the spec's worked example, written literally:
`customer:{}` is an empty object. -/
def exampleOrders : List JVal :=
  [.obj [("customer", .null)],
   .obj [("customer", .obj []), ("phone", .null)],
   .obj [("customer", .obj []), ("phone", .str "+380501234567"), ("sum", .num 0)],
   .obj [("customer", .obj []), ("phone", .str "+380501234567"), ("sum", .num 10)]]

/-- The worked example with non-empty (hence truthy) customer objects. -/
def exampleOrdersClient : List JVal :=
  [.obj [("customer", .null)],
   .obj [("customer", .obj [("id", .str "c")]), ("phone", .null)],
   .obj [("customer", .obj [("id", .str "c")]), ("phone", .str "+380501234567"), ("sum", .num 0)],
   .obj [("customer", .obj [("id", .str "c")]), ("phone", .str "+380501234567"), ("sum", .num 10)]]

/-- A record whose `order` field is present but holds an empty (falsy)
object, while the record itself has a truthy customer. -/
def nestedFalsyKvs : List (String × JVal) :=
  [("order", .obj []), ("customer", .obj [("id", .str "x")])]

def w3orders : List JVal := [.obj [("customer", .null)]]

def w3sum : Summary :=
  { total := 1, no_client := 1, no_phone := 0, invalid := [], inv_count := 0,
    zero := 0, unique := 0, dup := [] }

def w6orders : List JVal :=
  [.obj [("customer", .obj [("id", .str "c")]), ("phone", .str "+381"), ("sum", .num 5)],
   .obj [("customer", .obj [("id", .str "c")]), ("phone", .str "+381"), ("sum", .num 5)],
   .obj [("customer", .obj [("id", .str "c")]), ("phone", .str "+123"), ("sum", .num 5)]]

def w6sum : Summary :=
  { total := 3, no_client := 0, no_phone := 0, invalid := ["+123", "+381"], inv_count := 3,
    zero := 0, unique := 2, dup := [("+381", 2)] }

def w7orders : List JVal :=
  [.obj [("customer", .null), ("sum", .num 0)],
   .obj [("customer", .obj [("id", .str "c")]), ("phone", .str "+380501234567"), ("sum", .num 0)]]

def w7sum : Summary :=
  { total := 2, no_client := 1, no_phone := 0, invalid := [], inv_count := 0,
    zero := 1, unique := 1, dup := [] }

def w10orders : List JVal :=
  [.obj [("customer", .obj [("id", .str "c")]), ("phone", .str "+380501111111"), ("sum", .num 3)]]

def w10sum : Summary :=
  { total := 1, no_client := 0, no_phone := 0, invalid := ["+380501111111"], inv_count := 1,
    zero := 0, unique := 1, dup := [] }

/-! ## Properties of the date chunker -/

theorem chunkFuel_stop (fuel : Nat) (cur e : Int) (h : ¬ cur < e) :
    chunkFuel fuel cur e = [] := by
  cases fuel with
  | zero => rfl
  | succ fuel => simp [chunkFuel, h]

theorem chunkFuel_head (fuel : Nat) (cur e : Int) :
    ∀ w ∈ (chunkFuel fuel cur e).head?, w.1 = cur := by
  cases fuel with
  | zero => simp [chunkFuel]
  | succ fuel =>
    by_cases h : cur < e
    · simp [chunkFuel, h]
    · simp [chunkFuel, h]

theorem chunkFuel_chain (fuel : Nat) (e : Int) :
    ∀ cur, List.Chain' (fun a b : Int × Int => a.2 = b.1) (chunkFuel fuel cur e) := by
  induction fuel with
  | zero => intro cur; simp [chunkFuel]
  | succ fuel ih =>
    intro cur
    by_cases h : cur < e
    · simp only [chunkFuel, if_pos h]
      rw [List.chain'_cons']
      refine ⟨?_, ih _⟩
      intro y hy
      exact (chunkFuel_head fuel _ e y hy).symm
    · simp [chunkFuel, h]

theorem chunkFuel_bounds (fuel : Nat) (e : Int) :
    ∀ cur, ∀ w ∈ chunkFuel fuel cur e, w.1 < w.2 ∧ w.2 - w.1 ≤ oneDay := by
  induction fuel with
  | zero => intro cur; simp [chunkFuel]
  | succ fuel ih =>
    intro cur w hw
    by_cases h : cur < e
    · simp only [chunkFuel, if_pos h, List.mem_cons] at hw
      rcases hw with rfl | hw
      · constructor
        · exact lt_min (by simp only [oneDay]; omega) h
        · have := min_le_left (cur + oneDay) e
          omega
      · exact ih _ w hw
    · rw [chunkFuel_stop _ _ _ h] at hw
      simp at hw

theorem chunkFuel_last (e : Int) (fuel : Nat) :
    ∀ cur, cur < e → (e - cur).toNat ≤ fuel →
      (chunkFuel fuel cur e).getLast?.map Prod.snd = some e := by
  induction fuel with
  | zero =>
    intro cur h hf
    omega
  | succ fuel ih =>
    intro cur h hf
    simp only [chunkFuel, if_pos h]
    by_cases he : min (cur + oneDay) e < e
    · have hrec := ih _ he (by simp [oneDay] at he ⊢; omega)
      cases htail : chunkFuel fuel (min (cur + oneDay) e) e with
      | nil => rw [htail] at hrec; simp at hrec
      | cons t ts =>
        rw [htail] at hrec
        rw [List.getLast?_cons_cons]
        exact hrec
    · have hmin : min (cur + oneDay) e = e := by
        have := min_le_right (cur + oneDay) e
        omega
      rw [chunkFuel_stop _ _ _ (by omega)]
      simp [hmin]

/-- C1: for every start and end with end > start after clamping end to now,
the windows produced by the chunking loop partition `[start, end)`: the
first window starts at `start`, the final window's end is the clamped end,
consecutive windows share their boundary (no gaps, no overlaps), and every
window is nonempty and spans at most 24 hours. -/
theorem dateWindows_partition (s e now : Int) (h : s < clampEnd e now) :
    (dateWindows s (clampEnd e now)).head?.map Prod.fst = some s ∧
    (dateWindows s (clampEnd e now)).getLast?.map Prod.snd = some (clampEnd e now) ∧
    List.Chain' (fun a b : Int × Int => a.2 = b.1) (dateWindows s (clampEnd e now)) ∧
    ∀ w ∈ dateWindows s (clampEnd e now), w.1 < w.2 ∧ w.2 - w.1 ≤ oneDay := by
  refine ⟨?_, ?_, chunkFuel_chain _ _ _, chunkFuel_bounds _ _ _⟩
  · unfold dateWindows
    cases hfe : (clampEnd e now - s).toNat with
    | zero => omega
    | succ fuel =>
      simp [chunkFuel, if_pos h]
  · exact chunkFuel_last _ _ _ h (le_refl _)

theorem dateWindows_partition_witness :
    (0 : Int) < clampEnd 3 5 ∧
    ((dateWindows 0 (clampEnd 3 5)).head?.map Prod.fst = some 0 ∧
     (dateWindows 0 (clampEnd 3 5)).getLast?.map Prod.snd = some (clampEnd 3 5) ∧
     List.Chain' (fun a b : Int × Int => a.2 = b.1) (dateWindows 0 (clampEnd 3 5)) ∧
     ∀ w ∈ dateWindows 0 (clampEnd 3 5), w.1 < w.2 ∧ w.2 - w.1 ≤ oneDay) :=
  ⟨by decide, dateWindows_partition 0 3 5 (by decide)⟩

/-- C9: when start is at or after the clamped end, the chunker produces no
windows and aggregation returns zero orders (no error value exists in this
path; `fetch_orders` is total). -/
theorem dateWindows_empty_range (fetch : Int × Int → Except Unit (List JVal))
    (s e now : Int) (h : clampEnd e now ≤ s) :
    dateWindows s (clampEnd e now) = [] ∧ fetch_orders fetch s e now = [] := by
  have hz : dateWindows s (clampEnd e now) = [] := by
    unfold dateWindows
    have : (clampEnd e now - s).toNat = 0 := by omega
    rw [this]
    rfl
  exact ⟨hz, by simp [fetch_orders, hz]⟩

theorem dateWindows_empty_range_witness :
    clampEnd 3 10 ≤ (5 : Int) ∧
    (dateWindows 5 (clampEnd 3 10) = [] ∧
     fetch_orders (fun _ => .error ()) 5 3 10 = []) :=
  ⟨by decide, dateWindows_empty_range (fun _ => .error ()) 5 3 10 (by decide)⟩

/-! ## Failure isolation of the aggregation loop -/

theorem foldl_accum_flatten (f : Int × Int → List JVal) (l : List (Int × Int)) :
    ∀ init : List JVal,
      l.foldl (fun acc w => acc ++ f w) init = init ++ (l.map f).flatten := by
  induction l with
  | nil => intro init; simp
  | cons w l ih => intro init; simp [List.foldl_cons, ih, List.append_assoc]

/-- C5: a transport-level failure for one window is swallowed: that window
contributes no orders, and the aggregate is exactly the concatenation, in
encounter order, of the recovered per-window results (orders for windows
that succeed, nothing for windows that fail). -/
theorem fetch_failure_isolated (fetch : Int × Int → Except Unit (List JVal))
    (s e now : Int) (w : Int × Int)
    (_hw : w ∈ dateWindows s (clampEnd e now)) (hfail : fetch w = .error ()) :
    fetch_orders fetch s e now =
      ((dateWindows s (clampEnd e now)).map (recoverFetch fetch)).flatten ∧
    recoverFetch fetch w = [] := by
  constructor
  · unfold fetch_orders
    rw [foldl_accum_flatten]
    simp
  · simp [recoverFetch, hfail]

theorem fetch_failure_isolated_witness :
    ((0 : Int), oneDay) ∈ dateWindows 0 (clampEnd (2 * oneDay) (3 * oneDay)) ∧
    (fun w : Int × Int => if w.1 = 0 then (.error () : Except Unit (List JVal)) else .ok [.str "o"]) (0, oneDay) = .error () ∧
    (fetch_orders (fun w : Int × Int => if w.1 = 0 then .error () else .ok [.str "o"]) 0 (2 * oneDay) (3 * oneDay) =
       ((dateWindows 0 (clampEnd (2 * oneDay) (3 * oneDay))).map
         (recoverFetch (fun w : Int × Int => if w.1 = 0 then .error () else .ok [.str "o"]))).flatten ∧
     recoverFetch (fun w : Int × Int => if w.1 = 0 then .error () else .ok [.str "o"]) (0, oneDay) = []) :=
  ⟨by decide, by rfl,
   fetch_failure_isolated _ 0 (2 * oneDay) (3 * oneDay) (0, oneDay) (by decide) (by rfl)⟩

/-! ## Pointwise correspondence between the loop and the per-order views -/

theorem truthy_str (s : String) : truthy (JVal.str s) = (s != "") := rfl

theorem classify_views (o : JVal) (en : Entry) (h : classify o = .ok en) :
    isPhoneE en = hasClientAndPhone o ∧ isZeroE en = contributesZero o ∧
    invalidE en = invalidPhoneOf o := by
  cases o with
  | null => simp [classify] at h
  | bool b => simp [classify] at h
  | num n => simp [classify] at h
  | str s => simp [classify] at h
  | arr xs => simp [classify] at h
  | obj kvs =>
    simp only [classify] at h
    simp only [hasClientAndPhone, contributesZero, invalidPhoneOf]
    cases hu : unwrap kvs with
    | null => rw [hu] at h; simp at h
    | bool b => rw [hu] at h; simp at h
    | num n => rw [hu] at h; simp at h
    | str s => rw [hu] at h; simp at h
    | arr xs => rw [hu] at h; simp at h
    | obj od =>
      rw [hu] at h
      simp only [classifyOd] at h
      cases hc : truthy (pyGet od "customer") with
      | false =>
        rw [hc] at h
        simp only [Except.ok.injEq] at h
        subst h
        simp [isPhoneE, isZeroE, invalidE, hc]
      | true =>
        rw [hc] at h
        cases hp : truthy (pyGet od "phone") with
        | false =>
          rw [hp] at h
          simp only [Except.ok.injEq] at h
          subst h
          refine ⟨by simp [isPhoneE, hc, hp], ?_, ?_⟩
          · cases hps : pyGet od "phone" with
            | str s =>
              rw [hps] at hp
              simp only [truthy] at hp
              simp [isZeroE, hc, hps, hp]
            | _ => simp [isZeroE, hc, hps]
          · cases hps : pyGet od "phone" with
            | str s =>
              rw [hps] at hp
              simp only [truthy] at hp
              simp [invalidE, hc, hps, hp]
            | _ => simp [invalidE, hc, hps]
        | true =>
          rw [hp] at h
          cases hps : pyGet od "phone" with
          | str s =>
            rw [hps] at h
            rw [hps] at hp
            simp only [truthy] at hp
            simp only [Except.ok.injEq] at h
            subst h
            refine ⟨?_, ?_, ?_⟩
            · simp [isPhoneE, hc, hps, truthy_str, hp]
            · cases hz : pyEqZero (pyGetD od "sum" (JVal.num 0)) <;>
                simp [isZeroE, hc, hps, truthy_str, hp, hz]
            · cases hv : phoneValid s <;>
                simp [invalidE, hc, hps, truthy_str, hp, hv]
          | null => rw [hps] at h; simp at h
          | bool b => rw [hps] at h; simp at h
          | num n => rw [hps] at h; simp at h
          | arr xs => rw [hps] at h; simp at h
          | obj o2 => rw [hps] at h; simp at h

theorem classifyAll_views (os : List JVal) (es : List Entry)
    (h : classifyAll os = .ok es) :
    es.length = os.length ∧
    es.countP isPhoneE = os.countP hasClientAndPhone ∧
    es.countP isZeroE = os.countP contributesZero ∧
    es.filterMap invalidE = os.filterMap invalidPhoneOf := by
  induction os generalizing es with
  | nil =>
    simp only [classifyAll, Except.ok.injEq] at h
    subst h
    simp
  | cons o os ih =>
    simp only [classifyAll] at h
    cases hc : classify o with
    | error e => rw [hc] at h; simp at h
    | ok en =>
      rw [hc] at h
      cases hall : classifyAll os with
      | error e => rw [hall] at h; simp at h
      | ok es2 =>
        rw [hall] at h
        simp only [Except.ok.injEq] at h
        subst h
        obtain ⟨h1, h2, h3, h4⟩ := ih es2 hall
        obtain ⟨v1, v2, v3⟩ := classify_views o en hc
        refine ⟨by simp [h1], ?_, ?_, ?_⟩
        · simp [List.countP_cons, h2, v1]
        · simp [List.countP_cons, h3, v2]
        · simp only [List.filterMap_cons]
          rw [← v3, h4]

theorem entries_sum (es : List Entry) :
    es.countP isNoClientE + es.countP isNoPhoneE + es.countP isPhoneE = es.length := by
  induction es with
  | nil => simp
  | cons en es ih =>
    cases en <;> simp [List.countP_cons, isNoClientE, isNoPhoneE, isPhoneE] <;> omega

/-- C3: the three classification buckets partition the input: `no_client`
plus `no_phone` plus the number of orders contributing a phone (orders
with a truthy customer and a truthy phone after unwrapping) equals
`total`, the length of the input. -/
theorem summarize_counts_invariant (os : List JVal) (r : Summary)
    (h : summarize os = .ok r) :
    r.no_client + r.no_phone + os.countP hasClientAndPhone = r.total := by
  unfold summarize at h
  cases hall : classifyAll os with
  | error e => rw [hall] at h; simp [Except.map] at h
  | ok es =>
    rw [hall] at h
    simp only [Except.map, Except.ok.injEq] at h
    subst h
    obtain ⟨hlen, hcp, _, _⟩ := classifyAll_views os es hall
    simp only [buildSummary]
    rw [← hcp, ← hlen]
    exact entries_sum es

theorem summarize_counts_invariant_witness :
    summarize w3orders = .ok w3sum ∧
    w3sum.no_client + w3sum.no_phone + w3orders.countP hasClientAndPhone = w3sum.total :=
  ⟨by rfl, summarize_counts_invariant w3orders w3sum (by rfl)⟩

/-- C7: `zero` counts exactly the orders that passed both the customer and
the phone presence checks and whose sum (missing treated as `0`) compares
equal to `0`; any order failing either presence check never contributes,
whatever its sum. -/
theorem summarize_zero_coupling (os : List JVal) (r : Summary)
    (h : summarize os = .ok r) :
    r.zero = os.countP contributesZero ∧
    ∀ o : JVal, hasClientAndPhone o = false → contributesZero o = false := by
  constructor
  · unfold summarize at h
    cases hall : classifyAll os with
    | error e => rw [hall] at h; simp [Except.map] at h
    | ok es =>
      rw [hall] at h
      simp only [Except.map, Except.ok.injEq] at h
      subst h
      obtain ⟨_, _, hz, _⟩ := classifyAll_views os es hall
      simpa only [buildSummary] using hz
  · intro o hcp
    cases o with
    | obj kvs =>
      simp only [hasClientAndPhone] at hcp
      simp only [contributesZero]
      cases hu : unwrap kvs with
      | obj od =>
        rw [hu] at hcp
        simp only [Bool.and_eq_false_iff] at hcp
        rcases hcp with hc | hp
        · simp [hc]
        · cases hps : pyGet od "phone" with
          | str s =>
            rw [hps] at hp
            simp only [truthy] at hp
            simp [hps, hp]
          | _ => simp [hps]
      | _ => rfl
    | _ => rfl

theorem summarize_zero_coupling_witness :
    summarize w7orders = .ok w7sum ∧
    (w7sum.zero = w7orders.countP contributesZero ∧
     ∀ o : JVal, hasClientAndPhone o = false → contributesZero o = false) :=
  ⟨by rfl, summarize_zero_coupling w7orders w7sum (by rfl)⟩

/-! ## The code-point order used by `sorted` -/

theorem charToNat_inj (a b : Char) (h : a.toNat = b.toNat) : a = b :=
  Char.ext (UInt32.ext h)

theorem chLe_total : ∀ as bs : List Char, chLe as bs = true ∨ chLe bs as = true := by
  intro as
  induction as with
  | nil => intro bs; left; simp [chLe]
  | cons a as ih =>
    intro bs
    cases bs with
    | nil => right; simp [chLe]
    | cons b bs =>
      by_cases h1 : a.toNat < b.toNat
      · left; simp [chLe, h1]
      · by_cases h2 : b.toNat < a.toNat
        · right; simp [chLe, h2]
        · rcases ih bs with h | h
          · left; simp [chLe, h1, h2, h]
          · right; simp [chLe, h1, h2, h]

theorem chLe_trans : ∀ as bs cs : List Char,
    chLe as bs = true → chLe bs cs = true → chLe as cs = true := by
  intro as
  induction as with
  | nil => intro bs cs _ _; simp [chLe]
  | cons a as ih =>
    intro bs cs h1 h2
    cases bs with
    | nil => simp [chLe] at h1
    | cons b bs =>
      cases cs with
      | nil => simp [chLe] at h2
      | cons c cs =>
        simp only [chLe] at h1 h2 ⊢
        by_cases hab : a.toNat < b.toNat
        · by_cases hbc : b.toNat < c.toNat
          · simp [show a.toNat < c.toNat by omega]
          · by_cases hcb : c.toNat < b.toNat
            · rw [if_neg hbc, if_pos hcb] at h2
              exact absurd h2 (by simp)
            · simp [show a.toNat < c.toNat by omega]
        · by_cases hba : b.toNat < a.toNat
          · rw [if_neg hab, if_pos hba] at h1
            exact absurd h1 (by simp)
          · rw [if_neg hab, if_neg hba] at h1
            by_cases hbc : b.toNat < c.toNat
            · simp [show a.toNat < c.toNat by omega]
            · by_cases hcb : c.toNat < b.toNat
              · rw [if_neg hbc, if_pos hcb] at h2
                exact absurd h2 (by simp)
              · rw [if_neg hbc, if_neg hcb] at h2
                rw [if_neg (show ¬ a.toNat < c.toNat by omega),
                    if_neg (show ¬ c.toNat < a.toNat by omega)]
                exact ih bs cs h1 h2

theorem chLe_eq_or_lt : ∀ as bs : List Char,
    chLe as bs = true → as = bs ∨ chLt as bs = true := by
  intro as
  induction as with
  | nil =>
    intro bs _
    cases bs with
    | nil => left; rfl
    | cons b bs => right; simp [chLt]
  | cons a as ih =>
    intro bs h
    cases bs with
    | nil => simp [chLe] at h
    | cons b bs =>
      simp only [chLe] at h
      by_cases h1 : a.toNat < b.toNat
      · right; simp [chLt, h1]
      · by_cases h2 : b.toNat < a.toNat
        · simp [h1, h2] at h
        · have hab : a = b := charToNat_inj a b (by omega)
          subst hab
          simp only [h1, if_neg, ite_false] at h
          rcases ih bs (by simpa using h) with rfl | hlt
          · left; rfl
          · right; simp [chLt, h1, hlt]

theorem strLe_eq_or_lt (a b : String) (h : strLe a b = true) :
    a = b ∨ strLt a b = true := by
  rcases chLe_eq_or_lt a.data b.data h with hd | hd
  · left
    cases a; cases b; simp_all
  · right; exact hd

instance : IsTotal String fun a b => strLe a b = true :=
  ⟨fun a b => chLe_total a.data b.data⟩

instance : IsTrans String fun a b => strLe a b = true :=
  ⟨fun a b c => chLe_trans a.data b.data c.data⟩

theorem pairwise_strLt_of_sorted_nodup (l : List String)
    (hs : List.Pairwise (fun a b => strLe a b = true) l) (hn : l.Nodup) :
    List.Pairwise (fun a b => strLt a b = true) l :=
  (hs.and hn).imp fun hab => (strLe_eq_or_lt _ _ hab.1).resolve_left hab.2

/-- C6: the `invalid` field is an ascending (code-point order), duplicate-
free list holding exactly the distinct invalid phone strings encountered,
while `inv_count` counts every invalid occurrence with multiplicity. -/
theorem summarize_invalid_spec (os : List JVal) (r : Summary)
    (h : summarize os = .ok r) :
    List.Pairwise (fun a b => strLt a b = true) r.invalid ∧
    r.invalid.Nodup ∧
    (∀ p, p ∈ r.invalid ↔ p ∈ os.filterMap invalidPhoneOf) ∧
    r.inv_count = (os.filterMap invalidPhoneOf).length := by
  unfold summarize at h
  cases hall : classifyAll os with
  | error e => rw [hall] at h; simp [Except.map] at h
  | ok es =>
    rw [hall] at h
    simp only [Except.map, Except.ok.injEq] at h
    subst h
    obtain ⟨_, _, _, hinv⟩ := classifyAll_views os es hall
    simp only [buildSummary, hinv]
    have hsorted :
        List.Pairwise (fun a b => strLe a b = true)
          (List.insertionSort (fun a b => strLe a b = true)
            (os.filterMap invalidPhoneOf).dedup) :=
      List.sorted_insertionSort _ _
    have hnodup :
        (List.insertionSort (fun a b => strLe a b = true)
          (os.filterMap invalidPhoneOf).dedup).Nodup :=
      (List.perm_insertionSort _ _).nodup_iff.mpr (List.nodup_dedup _)
    refine ⟨pairwise_strLt_of_sorted_nodup _ hsorted hnodup, hnodup, ?_, trivial⟩
    intro p
    rw [(List.perm_insertionSort _ _).mem_iff, List.mem_dedup]

theorem summarize_invalid_spec_witness :
    summarize w6orders = .ok w6sum ∧
    (List.Pairwise (fun a b => strLt a b = true) w6sum.invalid ∧
     w6sum.invalid.Nodup ∧
     (∀ p, p ∈ w6sum.invalid ↔ p ∈ w6orders.filterMap invalidPhoneOf) ∧
     w6sum.inv_count = (w6orders.filterMap invalidPhoneOf).length) :=
  ⟨by rfl, summarize_invalid_spec w6orders w6sum (by rfl)⟩

/-! ## The spec's worked example -/

/-- C4 counterexample: on the literal four-order input of the example —
where `customer:{}` is an empty, hence falsy, object — the code counts all
four orders as `no_client` (the claim says `no_client = 1`, `no_phone = 1`,
`zero = 1`, `unique = 1`, `dup = {"+380501234567": 2}`). -/
theorem example_empty_customer_cex :
    summarize exampleOrders =
      .ok { total := 4, no_client := 4, no_phone := 0, invalid := [], inv_count := 0,
            zero := 0, unique := 0, dup := [] } := by
  rfl

/-- C4 amended: with truthy (non-empty) customer objects on the last three
orders, `summarize` returns exactly the claimed record. -/
theorem example_summary :
    summarize exampleOrdersClient =
      .ok { total := 4, no_client := 1, no_phone := 1, invalid := [], inv_count := 0,
            zero := 1, unique := 1, dup := [("+380501234567", 2)] } := by
  rfl

/-! ## Unwrapping of the nested `order` field -/

/-- C8 counterexample: a record whose `order` field is present but falsy
(an empty object) is *not* replaced by it — the record itself is used, so
this record (which has a truthy customer but no phone) is classified
`no_phone`, not `no_client` as field-presence precedence would give. -/
theorem unwrap_presence_cex :
    List.lookup "order" nestedFalsyKvs = some (.obj []) ∧
    unwrap nestedFalsyKvs = .obj nestedFalsyKvs ∧
    summarize [.obj nestedFalsyKvs] =
      .ok { total := 1, no_client := 0, no_phone := 1, invalid := [], inv_count := 0,
            zero := 0, unique := 0, dup := [] } :=
  ⟨rfl, rfl, rfl⟩

/-- C8 amended: the value of the `order` field takes precedence exactly
when it is truthy; when the field is absent or its value is falsy the
record itself is used; and `summarize`'s classification of a record is the
classification of that unwrapped view. -/
theorem unwrap_precedence (kvs : List (String × JVal)) :
    (truthy (pyGet kvs "order") = true → unwrap kvs = pyGet kvs "order") ∧
    (truthy (pyGet kvs "order") = false → unwrap kvs = .obj kvs) ∧
    (∀ od, unwrap kvs = .obj od → classify (.obj kvs) = classifyOd od) := by
  refine ⟨?_, ?_, ?_⟩
  · intro h; simp [unwrap, h]
  · intro h; simp [unwrap, h]
  · intro od h; simp [classify, h]

theorem unwrap_precedence_witness :
    (truthy (pyGet [("order", JVal.obj [("n", JVal.num 1)])] "order") = true ∧
     unwrap [("order", JVal.obj [("n", JVal.num 1)])] =
       pyGet [("order", JVal.obj [("n", JVal.num 1)])] "order") ∧
    (truthy (pyGet nestedFalsyKvs "order") = false ∧
     unwrap nestedFalsyKvs = .obj nestedFalsyKvs) ∧
    classify (.obj nestedFalsyKvs) = classifyOd nestedFalsyKvs :=
  ⟨⟨by rfl, (unwrap_precedence _).1 (by rfl)⟩,
   ⟨by rfl, (unwrap_precedence _).2.1 (by rfl)⟩,
   (unwrap_precedence _).2.2 _ ((unwrap_precedence _).2.1 (by rfl))⟩

/-! ## The phone pattern against the spec's reading -/

theorem repeatedSeqs_length : ∀ r ∈ repeatedSeqs, r.length = 7 := by decide

theorem isPrefixOf_len7 (r : List Char) (hr : r.length = 7)
    (d1 d2 d3 d4 d5 d6 d7 : Char) (tail : List Char) :
    r.isPrefixOf (d1 :: d2 :: d3 :: d4 :: d5 :: d6 :: d7 :: tail) = true ↔
      r = [d1, d2, d3, d4, d5, d6, d7] := by
  rw [ List.isPrefixOf_iff_prefix, List.prefix_iff_eq_take, hr]
  simp

/-- With exactly seven digit positions before the tail, the negative
lookahead's starts-with test coincides with equality of the seven-digit
suffix against the repeated sequences. -/
theorem lookahead_eq_mem (d1 d2 d3 d4 d5 d6 d7 : Char) (tail : List Char) :
    (repeatedSeqs.any fun r =>
        r.isPrefixOf (d1 :: d2 :: d3 :: d4 :: d5 :: d6 :: d7 :: tail)) =
      decide ([d1, d2, d3, d4, d5, d6, d7] ∈ repeatedSeqs) := by
  have key : ∀ x y : Bool, (x = true ↔ y = true) → x = y := by decide
  apply key
  rw [List.any_eq_true, decide_eq_true_eq]
  constructor
  · rintro ⟨r, hr, hp⟩
    have hl : r.length = 7 := repeatedSeqs_length r hr
    rw [isPrefixOf_len7 r hl] at hp
    rwa [hp] at hr
  · intro hm
    exact ⟨[d1, d2, d3, d4, d5, d6, d7], hm,
      (isPrefixOf_len7 _ (by simp) d1 d2 d3 d4 d5 d6 d7 tail).mpr rfl⟩

/-- C2 counterexample: the match is not exact against the claimed shape in
two ways.  `$` also matches just before a final newline, so
`+380501234567` followed by one newline is accepted; and `\d` matches any
Unicode decimal digit, so `+38050` followed by the seven Arabic-Indic
digits U+0661 through U+0667 is accepted — although neither string is
literally prefix + operator code + seven digits `0`-`9` and nothing else. -/
theorem phone_exact_match_cex :
    (phoneValid "+380501234567\n" = true ∧
     specPhoneValid "+380501234567\n" = false) ∧
    (phoneValid "+38050١٢٣٤٥٦٧" = true ∧
     specPhoneValid "+38050١٢٣٤٥٦٧" = false) :=
  ⟨⟨by decide, by decide⟩, by decide, by decide⟩

/-- C2 amended: the validator accepts exactly the strings of the shape
literal `+380`, a listed operator code, then seven Unicode decimal digits
(`\d`, category Nd) whose seven-character suffix is not one of the ten
ASCII repeated sequences, followed by the end of the string or by one
trailing newline (Python `$` semantics); the four concrete examples
behave as stated. -/
theorem phone_regex_characterization :
    (∀ s : String, phoneValid s = specPhoneValidNl s) ∧
    phoneValid "+380501234567" = true ∧
    phoneValid "+380501111111" = false ∧
    phoneValid "+380001234567" = false ∧
    phoneValid "380501234567" = false := by
  refine ⟨?_, by decide, by decide, by decide, by decide⟩
  intro s
  unfold phoneValid specPhoneValidNl
  generalize s.data = l
  rcases l with _ | ⟨c0, _ | ⟨c1, _ | ⟨c2, _ | ⟨c3, _ | ⟨a, _ | ⟨b, _ | ⟨d1, _ | ⟨d2, _ | ⟨d3, _ | ⟨d4, _ | ⟨d5, _ | ⟨d6, _ | ⟨d7, tail⟩⟩⟩⟩⟩⟩⟩⟩⟩⟩⟩⟩⟩ <;>
    simp [phoneValidAux, lookahead_eq_mem]

/-! ## The loop does not disturb its input -/

theorem stepOrder_eq (env : PyEnv) (o : JVal) :
    stepOrder env o = (classify o).map (applyEntry env) := by
  cases o with
  | null => rfl
  | bool b => rfl
  | num n => rfl
  | str s => rfl
  | arr xs => rfl
  | obj kvs =>
    simp only [stepOrder, classify]
    cases unwrap kvs with
    | null => rfl
    | bool b => rfl
    | num n => rfl
    | str s => rfl
    | arr xs => rfl
    | obj od =>
      simp only [classifyOd]
      cases truthy (pyGet od "customer") with
      | false => rfl
      | true =>
        cases truthy (pyGet od "phone") with
        | false => rfl
        | true =>
          cases pyGet od "phone" with
          | str s =>
            cases hv : phoneValid s <;> cases hz : pyEqZero (pyGetD od "sum" (.num 0)) <;>
              simp [Except.map, applyEntry, hv, hz]
          | null => rfl
          | bool b => rfl
          | num n => rfl
          | arr xs => rfl
          | obj o2 => rfl

theorem runLoop_eq (os : List JVal) : ∀ env : PyEnv,
    runLoop env os = (classifyAll os).map fun es => es.foldl applyEntry env := by
  induction os with
  | nil => intro env; rfl
  | cons o os ih =>
    intro env
    simp only [runLoop, classifyAll, stepOrder_eq]
    cases classify o with
    | error e => rfl
    | ok en =>
      simp only [Except.map]
      rw [ih]
      cases classifyAll os with
      | error e => rfl
      | ok es => rfl

theorem foldl_applyEntry (es : List Entry) : ∀ env : PyEnv,
    es.foldl applyEntry env =
      { orders := env.orders
        phones := env.phones ++ es.filterMap phoneE
        invalid := env.invalid ++ es.filterMap invalidE
        no_client := env.no_client + es.countP isNoClientE
        no_phone := env.no_phone + es.countP isNoPhoneE
        zero := env.zero + es.countP isZeroE } := by
  induction es with
  | nil => intro env; simp
  | cons en es ih =>
    intro env
    rw [List.foldl_cons, ih]
    cases en with
    | noClient =>
      simp [applyEntry, List.countP_cons, List.filterMap_cons,
            phoneE, invalidE, isNoClientE, isNoPhoneE, isZeroE]
      omega
    | noPhone =>
      simp [applyEntry, List.countP_cons, List.filterMap_cons,
            phoneE, invalidE, isNoClientE, isNoPhoneE, isZeroE]
      omega
    | phone s v z =>
      cases v <;> cases z <;>
        (simp [applyEntry, List.countP_cons, List.filterMap_cons,
               phoneE, invalidE, isNoClientE, isNoPhoneE, isZeroE,
               List.append_assoc]
         try omega)

/-- C10: the loop only reads the order list — with the variable
environment made explicit, the order list after a successful run is the
one passed in, and the summary computed from the final environment is the
one `summarize` returns, so the same sequence can be consumed again
unchanged. -/
theorem summarize_frame (os : List JVal) (r : Summary) (os2 : List JVal)
    (h : summarizeEnv os = .ok (r, os2)) :
    os2 = os ∧ summarize os = .ok r := by
  unfold summarizeEnv at h
  rw [runLoop_eq] at h
  cases hall : classifyAll os with
  | error e => rw [hall] at h; simp [Except.map] at h
  | ok es =>
    rw [hall] at h
    simp only [Except.map] at h
    rw [foldl_applyEntry] at h
    simp only [Except.ok.injEq, Prod.mk.injEq] at h
    obtain ⟨hr, hos⟩ := h
    refine ⟨hos.symm, ?_⟩
    unfold summarize
    rw [hall]
    simp only [Except.map, Except.ok.injEq]
    rw [← hr]
    simp [buildFinal, buildSummary]

theorem summarize_frame_witness :
    summarizeEnv w10orders = .ok (w10sum, w10orders) ∧
    (w10orders = w10orders ∧ summarize w10orders = .ok w10sum) :=
  ⟨by rfl, summarize_frame w10orders w10sum w10orders (by rfl)⟩

end Syrve
